import Mathlib

/-!
# Verification of the Lucca ingestion program (`src/ingestion.py`)

Shallow embedding of the Python module `ingestion.py`, which fetches
employee and department records from the Lucca HR API and writes them to
CSV files.  JSON values are modelled by the inductive type `Json`;
Python dictionaries are insertion-ordered association lists
`List (String × Json)`; Python exceptions that matter here
(`requests.exceptions.RequestException`, `KeyError`, `TypeError`) are
modelled by `PyError`, and fallible code returns `Except PyError α`.
The HTTP transport (`requests.get` followed by `response.json()`) is a
parameter `Transport`: it either yields a parsed JSON body or raises a
`RequestException` carrying a message.  Besides its result, each embedded
function records the lines it printed and the HTTP requests it issued,
in a `RunResult`.
-/

set_option autoImplicit false

namespace Ingestion

/-- JSON values, as decoded from a response body. -/
inductive Json where
  | null : Json
  | str : String → Json
  | num : Int → Json
  | obj : List (String × Json) → Json
  | arr : List Json → Json

/-- The Python exceptions relevant to this program.  `requestException`
models `requests.exceptions.RequestException` (the only class caught by
`retrieve_lucca_data`); `keyError` models `KeyError`; `typeError` models
`TypeError` (subscripting a non-mapping, or `+` on a non-list). -/
inductive PyError where
  | requestException (msg : String)
  | keyError (k : String)
  | typeError (msg : String)

/-- Lookup in an insertion-ordered association list (Python dict access
without the raise). -/
def alistFind (k : String) : List (String × Json) → Option Json
  | [] => none
  | (k', v) :: rest => if k' = k then some v else alistFind k rest

/-- Python subscripting `j[k]` with a string key: returns the value when
`j` is a mapping containing `k`, raises `KeyError` when the key is
missing, and `TypeError` when `j` is not a mapping. -/
def subscript (j : Json) (k : String) : Except PyError Json :=
  match j with
  | .obj fs =>
    match alistFind k fs with
    | some v => .ok v
    | none => .error (.keyError k)
  | _ => .error (.typeError "object is not subscriptable")

/-- Python dict assignment `d[k] = v`: replaces the value at an existing
key in place (keeping its position), appends a new entry otherwise. -/
def dictSet (fs : List (String × Json)) (k : String) (v : Json) :
    List (String × Json) :=
  match fs with
  | [] => [(k, v)]
  | (k', v') :: rest =>
    if k' = k then (k, v) :: rest else (k', v') :: dictSet rest k v

/-- Python list concatenation `a + b`: requires both operands to be
lists, raises `TypeError` otherwise. -/
def listAdd (a b : Json) : Except PyError (List Json) :=
  match a, b with
  | .arr xs, .arr ys => .ok (xs ++ ys)
  | _, _ => .error (.typeError "unsupported operand type(s) for +")

/-- Query parameters of one request: an insertion-ordered mapping from
parameter name to JSON value, exactly as the Python dict literal. -/
abbrev Params := List (String × Json)

/-- One HTTP GET request issued by the program: the URL suffix appended
to the configured base URL, and the query parameters. -/
structure Request where
  suffix : String
  params : Params

/-- The transport underneath `retrieve_lucca_data`: `requests.get`
followed by `response.json()`.  `.ok body` is a successfully parsed
response body; `.error msg` is a raised
`requests.exceptions.RequestException` with message `msg`. -/
abbrev Transport := String → Params → Except String Json

/-- Result of running one embedded function: the value returned or the
exception propagated, the diagnostic lines printed to standard output,
and the HTTP requests issued, in order. -/
structure RunResult (α : Type) where
  res : Except PyError α
  out : List String
  reqs : List Request

/-- `retrieve_lucca_data(url_suffix, params)` from `ingestion.py`:
issues the GET, extracts `data_json["data"]["items"]`, and returns it;
a raised `RequestException` is caught, `"An error occurred: ..."` is
printed, and the empty list is returned instead.  Exceptions raised by
the two subscript steps are not `RequestException`s and escape the
`try` block. -/
def retrieve_lucca_data (t : Transport) (url_suffix : String)
    (params : Params) : RunResult Json :=
  match t url_suffix params with
  | .error e =>
    ⟨.ok (.arr []), ["An error occurred: " ++ e], [⟨url_suffix, params⟩]⟩
  | .ok data_json =>
    match subscript data_json "data" with
    | .error err => ⟨.error err, [], [⟨url_suffix, params⟩]⟩
    | .ok d =>
      match subscript d "items" with
      | .error err => ⟨.error err, [], [⟨url_suffix, params⟩]⟩
      | .ok items => ⟨.ok items, [], [⟨url_suffix, params⟩]⟩

/-- The body of the flattening loop in `create_employees_list`, for one
record: `employee["department"] = employee["department"]["name"]`.  The
right-hand side is evaluated first, so a missing key or a non-mapping
raises before any assignment happens. -/
def flatten_employee (e : Json) : Except PyError Json :=
  match subscript e "department" with
  | .error err => .error err
  | .ok dept =>
    match subscript dept "name" with
    | .error err => .error err
    | .ok name =>
      match e with
      | .obj fs => .ok (.obj (dictSet fs "department" name))
      | _ => .error (.typeError "object does not support item assignment")

/-- Run a fallible step over each list element in order, stopping at the
first raised exception — the semantics of the `for` loop in
`create_employees_list`. -/
def mapExcept (f : Json → Except PyError Json) :
    List Json → Except PyError (List Json)
  | [] => .ok []
  | x :: xs =>
    match f x with
    | .error e => .error e
    | .ok y =>
      match mapExcept f xs with
      | .error e => .error e
      | .ok ys => .ok (y :: ys)

/-- The users endpoint suffix, `"/api/v3/users"`. -/
def users_suffix : String := "/api/v3/users"

/-- Query parameters of the first (current-employees) fetch:
`{"fields": fields}`. -/
def current_params (fields : Json) : Params := [("fields", fields)]

/-- Query parameters of the second (former-employees) fetch, exactly as
the Python dict literal: `{"dtContractEnd": "notequal,null",
"fields": fields}`. -/
def former_params (fields : Json) : Params :=
  [("dtContractEnd", .str "notequal,null"), ("fields", fields)]

/-- `create_employees_list(fields)` from `ingestion.py`: fetches current
employees, then former employees, concatenates the two lists, and
replaces each record's `department` mapping by its `name` entry. -/
def create_employees_list (t : Transport) (fields : Json) :
    RunResult (List Json) :=
  let r1 := retrieve_lucca_data t users_suffix (current_params fields)
  match r1.res with
  | .error e => ⟨.error e, r1.out, r1.reqs⟩
  | .ok current =>
    let r2 := retrieve_lucca_data t users_suffix (former_params fields)
    match r2.res with
    | .error e => ⟨.error e, r1.out ++ r2.out, r1.reqs ++ r2.reqs⟩
    | .ok former =>
      match listAdd current former with
      | .error e => ⟨.error e, r1.out ++ r2.out, r1.reqs ++ r2.reqs⟩
      | .ok combined =>
        ⟨mapExcept flatten_employee combined,
         r1.out ++ r2.out, r1.reqs ++ r2.reqs⟩

/-- `create_departments_list(fields)` from `ingestion.py`: one fetch
against `"/api/v3/departments"` with `{"fields": fields}`, returned
as-is. -/
def create_departments_list (t : Transport) (fields : Json) :
    RunResult Json :=
  retrieve_lucca_data t "/api/v3/departments" [("fields", fields)]

/-- Stringification of one cell value for CSV output. -/
def renderCell : Json → String
  | .null => ""
  | .str s => s
  | .num n => toString n
  | .obj _ => "object"
  | .arr _ => "array"

/-- Column headers derived by `pd.DataFrame` from a list of records: the
union of observed keys in order of first appearance. -/
def df_columns (data : List (List (String × Json))) : List String :=
  data.foldl
    (fun acc rec =>
      acc ++ ((rec.map Prod.fst).filter (fun k => ¬ acc.contains k)))
    []

/-- `save_to_csv(data, name)` from `ingestion.py`
(`pd.DataFrame(data).to_csv(name, index=False)`), modelled as the grid
of cells written: the header row of column names, then one row per
record with the stringified value in each column, the empty string for
a missing key, and no row-index column (`index=False`).  Numeric cells
are rendered by straightforward stringification; pandas' float
promotion of columns that contain missing values is not modelled. -/
def save_to_csv (data : List (List (String × Json))) :
    List (List String) :=
  let cols := df_columns data
  cols :: data.map (fun rec =>
    cols.map (fun c =>
      match alistFind c rec with
      | some v => renderCell v
      | none => ""))

/-- The JSON envelope shape the API responds with:
`{"data": {"items": ...}}`. -/
def envelope (items : Json) : Json :=
  .obj [("data", .obj [("items", items)])]

/-- Whether one record has the shape the flattening loop needs: a
`department` entry that is itself a mapping containing a `name` entry. -/
def dept_shape_ok (e : Json) : Bool :=
  match subscript e "department" with
  | .error _ => false
  | .ok d =>
    match subscript d "name" with
    | .error _ => false
    | .ok _ => true

/-- The record `{"firstName": "Ann", "department": {"name": "Eng"}}` of
the end-to-end scenario. -/
def annRecord : Json :=
  .obj [("firstName", .str "Ann"),
        ("department", .obj [("name", .str "Eng")])]

/-- The record `annRecord` after department flattening:
`{"firstName": "Ann", "department": "Eng"}`. -/
def annFlat : Json :=
  .obj [("firstName", .str "Ann"), ("department", .str "Eng")]

/-- A second well-shaped record,
`{"firstName": "Bob", "department": {"name": "Ops"}}`. -/
def bobRecord : Json :=
  .obj [("firstName", .str "Bob"),
        ("department", .obj [("name", .str "Ops")])]

/-- The record `bobRecord` after department flattening. -/
def bobFlat : Json :=
  .obj [("firstName", .str "Bob"), ("department", .str "Ops")]

/-- The stub transport of the end-to-end scenario: the users request
without the `dtContractEnd` filter yields the envelope
`{"data": {"items": [annRecord]}}`; the request with the filter yields
`{"data": {"items": []}}`. -/
def stubTransport : Transport := fun _ params =>
  match alistFind "dtContractEnd" params with
  | some _ => .ok (envelope (.arr []))
  | none => .ok (envelope (.arr [annRecord]))

/-- A stub transport whose unfiltered fetch yields `annRecord` and whose
filtered (former-employees) fetch yields `bobRecord`. -/
def stub2Transport : Transport := fun _ params =>
  match alistFind "dtContractEnd" params with
  | some _ => .ok (envelope (.arr [bobRecord]))
  | none => .ok (envelope (.arr [annRecord]))

/-- The field list `["firstName", "department"]` of the end-to-end
scenario. -/
def fieldsC6 : Json := .arr [.str "firstName", .str "department"]

/-- A transport whose underlying GET always raises a
`RequestException`. -/
def failT : Transport := fun _ _ => .error "connection refused"

/-- A transport that answers with a parsed body lacking the `data`
key. -/
def badEnvelopeT : Transport := fun _ _ => .ok (.obj [])

/-- A record with no `department` key. -/
def badShapeRecord : Json := .obj [("firstName", .str "Bo")]

/-- A transport whose every fetch yields one record lacking the
`department` key. -/
def badShapeT : Transport := fun _ _ =>
  .ok (envelope (.arr [badShapeRecord]))

/-- A department record as returned by the departments endpoint. -/
def deptRecord : Json :=
  .obj [("name", .str "Eng"), ("currentUsersCount", .num 12)]

/-- The orchestrator's department field list. -/
def deptFields : Json :=
  .arr [.str "name", .str "currentUsersCount", .str "hierarchy"]

/-- A transport for the departments endpoint returning one record. -/
def deptT : Transport := fun _ _ => .ok (envelope (.arr [deptRecord]))

end Ingestion

namespace Ingestion

/-! ## Supporting lemmas -/

/-- A successful subscript means the value was a mapping containing the
key. -/
theorem subscript_ok {j : Json} {k : String} {v : Json}
    (h : subscript j k = .ok v) :
    ∃ fs, j = .obj fs ∧ alistFind k fs = some v := by
  cases j with
  | obj fs =>
    refine ⟨fs, rfl, ?_⟩
    cases hf : alistFind k fs with
    | none => simp [subscript, hf] at h
    | some w => simp [subscript, hf] at h; rw [h]
  | null => simp [subscript] at h
  | str s => simp [subscript] at h
  | num n => simp [subscript] at h
  | arr l => simp [subscript] at h

/-- Subscripting a mapping at a present key succeeds. -/
theorem subscript_obj_find {fs : List (String × Json)} {k : String}
    {v : Json} (h : alistFind k fs = some v) :
    subscript (.obj fs) k = .ok v := by
  simp [subscript, h]

/-- A value found in an association list is structurally smaller than
the mapping holding it. -/
theorem alistFind_sizeOf_lt {fs : List (String × Json)} {k : String}
    {v : Json} (h : alistFind k fs = some v) :
    sizeOf v < sizeOf (Json.obj fs) := by
  induction fs with
  | nil => simp [alistFind] at h
  | cons p rest ih =>
    obtain ⟨k0, v0⟩ := p
    by_cases hk : k0 = k
    · simp [alistFind, hk] at h
      subst h
      simp
      omega
    · simp [alistFind, hk] at h
      have := ih h
      simp at this ⊢
      omega

/-- Setting a key makes it present with the new value. -/
theorem alistFind_dictSet_self (fs : List (String × Json)) (k : String)
    (v : Json) : alistFind k (dictSet fs k v) = some v := by
  induction fs with
  | nil => simp [dictSet, alistFind]
  | cons p rest ih =>
    obtain ⟨k0, v0⟩ := p
    by_cases hk : k0 = k
    · simp [dictSet, hk, alistFind]
    · simp [dictSet, hk, alistFind, ih]

/-- Setting one key leaves every other key's value unchanged. -/
theorem alistFind_dictSet_other (fs : List (String × Json))
    (k k' : String) (v : Json) (hne : k' ≠ k) :
    alistFind k' (dictSet fs k v) = alistFind k' fs := by
  induction fs with
  | nil => simp [dictSet, alistFind, Ne.symm hne]
  | cons p rest ih =>
    obtain ⟨k0, v0⟩ := p
    by_cases hk : k0 = k
    · subst hk
      simp [dictSet, alistFind, Ne.symm hne]
    · simp [dictSet, hk, alistFind, ih]

/-- Setting a key that is already present keeps the key sequence of the
mapping unchanged. -/
theorem dictSet_keys (fs : List (String × Json)) (k : String)
    (v v0 : Json) (h : alistFind k fs = some v0) :
    (dictSet fs k v).map Prod.fst = fs.map Prod.fst := by
  induction fs with
  | nil => simp [alistFind] at h
  | cons p rest ih =>
    obtain ⟨k0, v1⟩ := p
    by_cases hk : k0 = k
    · subst hk
      simp [dictSet]
    · simp [alistFind, hk] at h
      simp [dictSet, hk, ih h]

/-- Inversion of one successful loop step. -/
theorem mapExcept_cons_ok {f : Json → Except PyError Json} {a : Json}
    {l ys : List Json} (h : mapExcept f (a :: l) = .ok ys) :
    ∃ y ys', f a = .ok y ∧ mapExcept f l = .ok ys' ∧ ys = y :: ys' := by
  simp only [mapExcept] at h
  cases hfa : f a with
  | error e => simp [hfa] at h
  | ok y =>
    simp only [hfa] at h
    cases hml : mapExcept f l with
    | error e => simp [hml] at h
    | ok ys' =>
      simp only [hml] at h
      simp at h
      exact ⟨y, ys', rfl, rfl, h.symm⟩

/-- Each element of a successfully mapped list comes from some input
element. -/
theorem mapExcept_mem_ok {f : Json → Except PyError Json} :
    ∀ {xs ys : List Json}, mapExcept f xs = .ok ys → ∀ {y}, y ∈ ys →
      ∃ x ∈ xs, f x = .ok y := by
  intro xs
  induction xs with
  | nil =>
    intro ys h y hy
    simp only [mapExcept] at h
    cases h
    simp at hy
  | cons a l ih =>
    intro ys h y hy
    obtain ⟨y0, ys', hfa, hml, rfl⟩ := mapExcept_cons_ok h
    rcases List.mem_cons.mp hy with rfl | hy'
    · exact ⟨a, List.mem_cons_self a l, hfa⟩
    · obtain ⟨x, hx, hfx⟩ := ih hml hy'
      exact ⟨x, List.mem_cons_of_mem a hx, hfx⟩

/-- When the loop completes, every input element was processed without
an exception. -/
theorem mapExcept_ok_forall {f : Json → Except PyError Json} :
    ∀ {xs ys : List Json}, mapExcept f xs = .ok ys →
      ∀ x ∈ xs, ∃ y, f x = .ok y := by
  intro xs
  induction xs with
  | nil => intro ys h x hx; simp at hx
  | cons a l ih =>
    intro ys h x hx
    obtain ⟨y0, ys', hfa, hml, rfl⟩ := mapExcept_cons_ok h
    rcases List.mem_cons.mp hx with rfl | hx'
    · exact ⟨y0, hfa⟩
    · exact ih hml x hx'

/-- A successful loop preserves the list length. -/
theorem mapExcept_length {f : Json → Except PyError Json} :
    ∀ {xs ys : List Json}, mapExcept f xs = .ok ys →
      ys.length = xs.length := by
  intro xs
  induction xs with
  | nil =>
    intro ys h
    simp only [mapExcept] at h
    cases h
    rfl
  | cons a l ih =>
    intro ys h
    obtain ⟨y0, ys', _, hml, rfl⟩ := mapExcept_cons_ok h
    simp [ih hml]

/-- A successful loop maps the element at each position to the output
at the same position. -/
theorem mapExcept_get {f : Json → Except PyError Json} :
    ∀ {xs ys : List Json}, mapExcept f xs = .ok ys →
      ∀ (i : Nat) (hi : i < xs.length) (hi' : i < ys.length),
        f (xs.get ⟨i, hi⟩) = .ok (ys.get ⟨i, hi'⟩) := by
  intro xs
  induction xs with
  | nil => intro ys h i hi; simp at hi
  | cons a l ih =>
    intro ys h i hi hi'
    obtain ⟨y0, ys', hfa, hml, rfl⟩ := mapExcept_cons_ok h
    cases i with
    | zero => exact hfa
    | succ n =>
      exact ih hml n (Nat.lt_of_succ_lt_succ hi)
        (Nat.lt_of_succ_lt_succ hi')

/-- A successful loop over a concatenation splits into successful loops
over the parts. -/
theorem mapExcept_append_ok {f : Json → Except PyError Json} :
    ∀ {xs ys zs : List Json}, mapExcept f (xs ++ ys) = .ok zs →
      ∃ zs1 zs2, zs = zs1 ++ zs2 ∧ mapExcept f xs = .ok zs1 ∧
        mapExcept f ys = .ok zs2 := by
  intro xs
  induction xs with
  | nil => intro ys zs h; exact ⟨[], zs, by simp, rfl, h⟩
  | cons a l ih =>
    intro ys zs h
    rw [List.cons_append] at h
    obtain ⟨y, zs', hfa, hml, rfl⟩ := mapExcept_cons_ok h
    obtain ⟨zs1, zs2, rfl, h1, h2⟩ := ih hml
    exact ⟨y :: zs1, zs2, by simp, by simp [mapExcept, hfa, h1], h2⟩

/-- Inversion of one successful flattening step: the record was a
mapping whose `department` entry was a mapping containing `name`, and
the result replaces `department` by that `name` value. -/
theorem flatten_employee_ok {e e' : Json}
    (h : flatten_employee e = .ok e') :
    ∃ fs dfs n, e = .obj fs ∧
      alistFind "department" fs = some (.obj dfs) ∧
      alistFind "name" dfs = some n ∧
      e' = .obj (dictSet fs "department" n) := by
  unfold flatten_employee at h
  cases hd : subscript e "department" with
  | error err => simp [hd] at h
  | ok dept =>
    simp only [hd] at h
    cases hn : subscript dept "name" with
    | error err => simp [hn] at h
    | ok name =>
      simp only [hn] at h
      obtain ⟨fs, rfl, hf⟩ := subscript_ok hd
      obtain ⟨dfs, rfl, hdf⟩ := subscript_ok hn
      simp at h
      exact ⟨fs, dfs, name, rfl, hf, hdf, h.symm⟩

/-- A record whose shape is bad cannot be flattened successfully. -/
theorem flatten_employee_bad {e : Json}
    (hbad : dept_shape_ok e = false) {y : Json}
    (h : flatten_employee e = .ok y) : False := by
  obtain ⟨fs, dfs, n, rfl, hf, hdf, _⟩ := flatten_employee_ok h
  unfold dept_shape_ok at hbad
  simp [subscript, hf, hdf] at hbad

/-- Every fetch records exactly one issued request. -/
theorem retrieve_lucca_data_reqs (t : Transport) (s : String)
    (p : Params) : (retrieve_lucca_data t s p).reqs = [⟨s, p⟩] := by
  unfold retrieve_lucca_data
  split
  · rfl
  · split
    · rfl
    · split <;> rfl

/-- A fetch whose transport answers with a well-shaped envelope returns
its items with no diagnostic. -/
theorem retrieve_lucca_data_envelope (t : Transport) (s : String)
    (p : Params) (items : Json) (h : t s p = .ok (envelope items)) :
    retrieve_lucca_data t s p = ⟨.ok items, [], [⟨s, p⟩]⟩ := by
  unfold retrieve_lucca_data
  rw [h]
  simp [envelope, subscript, alistFind]

/-- When both users fetches answer with well-shaped envelopes holding
lists, the employees builder is the flattening loop over their
concatenation, and it issues exactly the two requests. -/
theorem create_employees_list_eq_of_envelopes (t : Transport)
    (fields : Json) (xs ys : List Json)
    (h1 : t users_suffix (current_params fields) =
      .ok (envelope (.arr xs)))
    (h2 : t users_suffix (former_params fields) =
      .ok (envelope (.arr ys))) :
    create_employees_list t fields =
      ⟨mapExcept flatten_employee (xs ++ ys), [],
       [⟨users_suffix, current_params fields⟩,
        ⟨users_suffix, former_params fields⟩]⟩ := by
  unfold create_employees_list
  rw [retrieve_lucca_data_envelope t _ _ _ h1,
      retrieve_lucca_data_envelope t _ _ _ h2]
  rfl

/-- A successful employees build is a successful flattening loop over
some concatenated fetch result. -/
theorem create_employees_list_res_ok {t : Transport} {fields : Json}
    {out : List Json}
    (h : (create_employees_list t fields).res = .ok out) :
    ∃ combined, mapExcept flatten_employee combined = .ok out := by
  simp only [create_employees_list] at h
  split at h
  · simp at h
  · split at h
    · simp at h
    · split at h
      · simp at h
      · exact ⟨_, h⟩

/-- C6: with the stub transport that returns one record
`{"firstName": "Ann", "department": {"name": "Eng"}}` for the first
users fetch and no records for the second,
`create_employees_list(["firstName", "department"])` returns exactly
the one-element list `[{"firstName": "Ann", "department": "Eng"}]`. -/
theorem create_employees_list_stub_scenario :
    (create_employees_list stubTransport fieldsC6).res =
      .ok [.obj [("firstName", .str "Ann"), ("department", .str "Eng")]] :=
  rfl

/-- C8: for the records `[{"a": 1}, {"a": 2, "b": 5}]`, the written CSV
grid has header row `a,b` (union of observed keys in insertion order),
the first data row has the empty string in the `b` cell, and every row
has exactly the two columns — no row-index column is emitted. -/
theorem save_to_csv_missing_column :
    save_to_csv [[("a", .num 1)], [("a", .num 2), ("b", .num 5)]] =
      [["a", "b"], ["1", ""], ["2", "5"]] :=
  rfl

/-- C1: whenever the underlying transport raises a
`RequestException`, `retrieve_lucca_data` catches it, prints the
diagnostic line `"An error occurred: ..."`, and returns the empty list
— its result is `.ok`, so the failure never propagates. -/
theorem retrieve_lucca_data_degrades_to_empty (t : Transport)
    (s : String) (p : Params) (msg : String) (h : t s p = .error msg) :
    retrieve_lucca_data t s p =
      ⟨.ok (.arr []), ["An error occurred: " ++ msg], [⟨s, p⟩]⟩ := by
  unfold retrieve_lucca_data
  rw [h]

/-- Witness for C1 at a concrete always-failing transport. -/
theorem retrieve_lucca_data_degrades_to_empty_witness :
    retrieve_lucca_data failT users_suffix [] =
      ⟨.ok (.arr []), ["An error occurred: connection refused"],
       [⟨users_suffix, []⟩]⟩ :=
  retrieve_lucca_data_degrades_to_empty failT users_suffix []
    "connection refused" rfl

/-- C10: when the transport succeeds but the parsed body lacks the
`data` key, or its `data` entry lacks the `items` key, the resulting
`KeyError` is not caught (the handler catches only
`RequestException`) and propagates to the caller. -/
theorem retrieve_lucca_data_envelope_mismatch_raises (t : Transport)
    (s : String) (p : Params) (body : Json) (hb : t s p = .ok body)
    (h : subscript body "data" = .error (.keyError "data") ∨
      ∃ d, subscript body "data" = .ok d ∧
        subscript d "items" = .error (.keyError "items")) :
    (retrieve_lucca_data t s p).res = .error (.keyError "data") ∨
    (retrieve_lucca_data t s p).res = .error (.keyError "items") := by
  unfold retrieve_lucca_data
  rw [hb]
  rcases h with h | ⟨d, hd, hi⟩
  · left
    simp [h]
  · right
    simp [hd, hi]

/-- Witness for C10 at a transport answering with a body that has no
`data` key. -/
theorem retrieve_lucca_data_envelope_mismatch_raises_witness :
    (retrieve_lucca_data badEnvelopeT users_suffix []).res =
        .error (.keyError "data") ∨
    (retrieve_lucca_data badEnvelopeT users_suffix []).res =
        .error (.keyError "items") :=
  retrieve_lucca_data_envelope_mismatch_raises badEnvelopeT
    users_suffix [] (.obj []) rfl (Or.inl rfl)

/-- C2: in every record returned by `create_employees_list`, whether it
came from the current-employees fetch or the former-employees fetch,
the `department` entry is exactly the `name` value taken from the
original record's nested department mapping — never that mapping
itself. -/
theorem create_employees_list_department_is_name (t : Transport)
    (fields : Json) (xs ys out : List Json)
    (h1 : t users_suffix (current_params fields) =
      .ok (envelope (.arr xs)))
    (h2 : t users_suffix (former_params fields) =
      .ok (envelope (.arr ys)))
    (hres : (create_employees_list t fields).res = .ok out) :
    ∀ e' ∈ out, ∃ e ∈ xs ++ ys, ∃ dfs n,
      flatten_employee e = .ok e' ∧
      subscript e "department" = .ok (.obj dfs) ∧
      alistFind "name" dfs = some n ∧
      subscript e' "department" = .ok n ∧
      n ≠ .obj dfs := by
  rw [create_employees_list_eq_of_envelopes t fields xs ys h1 h2] at hres
  intro e' he'
  obtain ⟨e, he, hfe⟩ := mapExcept_mem_ok hres he'
  obtain ⟨fs, dfs, n, rfl, hf, hdf, rfl⟩ := flatten_employee_ok hfe
  refine ⟨.obj fs, he, dfs, n, hfe, subscript_obj_find hf, hdf, ?_, ?_⟩
  · exact subscript_obj_find (alistFind_dictSet_self fs "department" n)
  · intro hcontra
    have hlt := alistFind_sizeOf_lt hdf
    rw [hcontra] at hlt
    exact absurd hlt (lt_irrefl _)

/-- Witness for C2 at the stub transport of the end-to-end scenario,
instantiated at the one returned record. -/
theorem create_employees_list_department_is_name_witness :
    ∃ e ∈ [annRecord] ++ ([] : List Json), ∃ dfs n,
      flatten_employee e = .ok annFlat ∧
      subscript e "department" = .ok (.obj dfs) ∧
      alistFind "name" dfs = some n ∧
      subscript annFlat "department" = .ok n ∧
      n ≠ .obj dfs :=
  create_employees_list_department_is_name stubTransport fieldsC6
    [annRecord] [] [annFlat] rfl rfl rfl annFlat (by simp)

/-- C3: if some record in either fetch's result lacks a `department`
key, or its `department` value is not a mapping containing `name`, the
employees builder raises (its result is an uncaught exception that
propagates to the caller) instead of skipping the record or
substituting a default. -/
theorem create_employees_list_bad_shape_raises (t : Transport)
    (fields : Json) (xs ys : List Json)
    (h1 : t users_suffix (current_params fields) =
      .ok (envelope (.arr xs)))
    (h2 : t users_suffix (former_params fields) =
      .ok (envelope (.arr ys)))
    (hbad : ∃ e ∈ xs ++ ys, dept_shape_ok e = false) :
    ∃ err, (create_employees_list t fields).res = .error err := by
  rw [create_employees_list_eq_of_envelopes t fields xs ys h1 h2]
  obtain ⟨e, he, hbe⟩ := hbad
  cases hm : mapExcept flatten_employee (xs ++ ys) with
  | error err => exact ⟨err, by simp [hm]⟩
  | ok out =>
    obtain ⟨y, hy⟩ := mapExcept_ok_forall hm e he
    exact (flatten_employee_bad hbe hy).elim

/-- Witness for C3 at a transport delivering one record with no
`department` key. -/
theorem create_employees_list_bad_shape_raises_witness :
    ∃ err, (create_employees_list badShapeT fieldsC6).res =
      .error err :=
  create_employees_list_bad_shape_raises badShapeT fieldsC6
    [badShapeRecord] [badShapeRecord] rfl rfl
    ⟨badShapeRecord, by simp, rfl⟩

/-- C4: in the employees builder's output, the flattened records of the
first (current-employees) fetch precede all flattened records of the
second (former-employees) fetch, and each fetch's internal ordering is
preserved position by position. -/
theorem create_employees_list_order (t : Transport) (fields : Json)
    (xs ys out : List Json)
    (h1 : t users_suffix (current_params fields) =
      .ok (envelope (.arr xs)))
    (h2 : t users_suffix (former_params fields) =
      .ok (envelope (.arr ys)))
    (hres : (create_employees_list t fields).res = .ok out) :
    ∃ outc outf, out = outc ++ outf ∧
      mapExcept flatten_employee xs = .ok outc ∧
      mapExcept flatten_employee ys = .ok outf ∧
      outc.length = xs.length ∧ outf.length = ys.length ∧
      (∀ (i : Nat) (hi : i < xs.length) (hi' : i < outc.length),
        flatten_employee (xs.get ⟨i, hi⟩) = .ok (outc.get ⟨i, hi'⟩)) ∧
      (∀ (j : Nat) (hj : j < ys.length) (hj' : j < outf.length),
        flatten_employee (ys.get ⟨j, hj⟩) = .ok (outf.get ⟨j, hj'⟩)) := by
  rw [create_employees_list_eq_of_envelopes t fields xs ys h1 h2] at hres
  obtain ⟨outc, outf, rfl, hc, hf⟩ := mapExcept_append_ok hres
  exact ⟨outc, outf, rfl, hc, hf, mapExcept_length hc,
    mapExcept_length hf,
    fun i hi hi' => mapExcept_get hc i hi hi',
    fun j hj hj' => mapExcept_get hf j hj hj'⟩

/-- Witness for C4 at a transport whose current fetch yields
`annRecord` and whose former fetch yields `bobRecord`. -/
theorem create_employees_list_order_witness :
    ∃ outc outf, [annFlat, bobFlat] = outc ++ outf ∧
      mapExcept flatten_employee [annRecord] = .ok outc ∧
      mapExcept flatten_employee [bobRecord] = .ok outf ∧
      outc.length = [annRecord].length ∧
      outf.length = [bobRecord].length ∧
      (∀ (i : Nat) (hi : i < [annRecord].length)
        (hi' : i < outc.length),
        flatten_employee ([annRecord].get ⟨i, hi⟩) =
          .ok (outc.get ⟨i, hi'⟩)) ∧
      (∀ (j : Nat) (hj : j < [bobRecord].length)
        (hj' : j < outf.length),
        flatten_employee ([bobRecord].get ⟨j, hj⟩) =
          .ok (outf.get ⟨j, hj'⟩)) :=
  create_employees_list_order stub2Transport fieldsC6
    [annRecord] [bobRecord] [annFlat, bobFlat] rfl rfl rfl

/-- C5: when the transport answers the single departments request with
a well-shaped envelope, `create_departments_list` returns exactly the
fetched items value with no transformation, printed nothing, and issued
exactly one request against `"/api/v3/departments"` with
`{"fields": fields}`. -/
theorem create_departments_list_passthrough (t : Transport)
    (fields items : Json)
    (h : t "/api/v3/departments" [("fields", fields)] =
      .ok (envelope items)) :
    create_departments_list t fields =
      ⟨.ok items, [],
       [⟨"/api/v3/departments", [("fields", fields)]⟩]⟩ := by
  unfold create_departments_list
  exact retrieve_lucca_data_envelope t _ _ items h

/-- Witness for C5 at a concrete departments transport. -/
theorem create_departments_list_passthrough_witness :
    create_departments_list deptT deptFields =
      ⟨.ok (.arr [deptRecord]), [],
       [⟨"/api/v3/departments", [("fields", deptFields)]⟩]⟩ :=
  create_departments_list_passthrough deptT deptFields
    (.arr [deptRecord]) rfl

/-- C7 counterexample: the second request issued by the employees
builder carries the filter value `"notequal,null"`, which is not the
string `"not-equal null"` stated by the claim. -/
theorem create_employees_list_filter_literal :
    (create_employees_list stubTransport fieldsC6).reqs =
      [⟨users_suffix, current_params fieldsC6⟩,
       ⟨users_suffix, former_params fieldsC6⟩] ∧
    alistFind "dtContractEnd" (former_params fieldsC6) =
      some (.str "notequal,null") ∧
    Json.str "notequal,null" ≠ Json.str "not-equal null" := by
  refine ⟨rfl, rfl, ?_⟩
  intro h
  injection h with h2
  revert h2
  decide

/-- C7 as amended: whenever the first fetch does not itself raise, the
employees builder issues exactly two requests, both against the users
endpoint, the second carrying exactly the parameters
`{"dtContractEnd": "notequal,null", "fields": fields}` — the filter
value is the vendor string `"notequal,null"`, passed through
unmodified. -/
theorem create_employees_list_second_request (t : Transport)
    (fields cur : Json)
    (h : (retrieve_lucca_data t users_suffix
      (current_params fields)).res = .ok cur) :
    (create_employees_list t fields).reqs =
      [⟨users_suffix, current_params fields⟩,
       ⟨users_suffix, former_params fields⟩] ∧
    former_params fields =
      [("dtContractEnd", .str "notequal,null"), ("fields", fields)] := by
  refine ⟨?_, rfl⟩
  simp only [create_employees_list, h, retrieve_lucca_data_reqs]
  split
  · rfl
  · split <;> rfl

/-- Witness for the amended C7 at the stub transport. -/
theorem create_employees_list_second_request_witness :
    (create_employees_list stubTransport fieldsC6).reqs =
      [⟨users_suffix, current_params fieldsC6⟩,
       ⟨users_suffix, former_params fieldsC6⟩] ∧
    former_params fieldsC6 =
      [("dtContractEnd", .str "notequal,null"),
       ("fields", fieldsC6)] :=
  create_employees_list_second_request stubTransport fieldsC6
    (.arr [annRecord]) rfl

/-- C9: the employees builder's only change to each record is the
department flattening — every returned record is its source record with
the `department` entry replaced, the key sequence is unchanged, and
every key other than `department` keeps exactly its fetched value. -/
theorem create_employees_list_frame (t : Transport) (fields : Json)
    (out : List Json)
    (hres : (create_employees_list t fields).res = .ok out) :
    ∀ e' ∈ out, ∃ fs n,
      flatten_employee (.obj fs) = .ok e' ∧
      e' = .obj (dictSet fs "department" n) ∧
      (dictSet fs "department" n).map Prod.fst = fs.map Prod.fst ∧
      (∀ k, k ≠ "department" →
        alistFind k (dictSet fs "department" n) = alistFind k fs) := by
  intro e' he'
  obtain ⟨combined, hm⟩ := create_employees_list_res_ok hres
  obtain ⟨e, _, hfe⟩ := mapExcept_mem_ok hm he'
  obtain ⟨fs, dfs, n, rfl, hf, hdf, rfl⟩ := flatten_employee_ok hfe
  exact ⟨fs, n, hfe, rfl, dictSet_keys fs "department" n (.obj dfs) hf,
    fun k hk => alistFind_dictSet_other fs "department" k n hk⟩

/-- Witness for C9 at the stub transport of the end-to-end scenario,
instantiated at the one returned record. -/
theorem create_employees_list_frame_witness :
    ∃ fs n,
      flatten_employee (.obj fs) = .ok annFlat ∧
      annFlat = .obj (dictSet fs "department" n) ∧
      (dictSet fs "department" n).map Prod.fst = fs.map Prod.fst ∧
      (∀ k, k ≠ "department" →
        alistFind k (dictSet fs "department" n) = alistFind k fs) :=
  create_employees_list_frame stubTransport fieldsC6 [annFlat] rfl
    annFlat (by simp)

end Ingestion
